import Mathlib

/-!
A shallow embedding of `client.go` from chanxuehong/rpcx: a resilience
wrapper around a `net/rpc` session.

Each Go function becomes a pure Lean function.  The external `net/rpc`
client objects (the sessions) are modelled by a heap of `closing` flags:
`net/rpc.Client.Close` returns `ErrShutdown` when the flag is already
set and otherwise sets it and returns the codec-close result, and a call
on a session whose flag is set fails with `ErrShutdown` (this mirrors
the documented behaviour of the standard library collaborator).  All
environmental nondeterminism — remote call results, codec close errors,
dial failures, which side of a `select` race fires first — is passed in
explicitly through environment records, so every operation is a
deterministic function of the state and the environment.

Durations are `Int` nanoseconds, matching Go's `time.Duration`.
-/

namespace Rpcx

/-- Error values.  `shutdown` is `rpc.ErrShutdown`; `canceled` and
`deadlineExceeded` are the context errors; `other` covers the remaining
distinct error values (dial errors, codec close errors, remote errors). -/
inductive RpcErr where
  | shutdown
  | canceled
  | deadlineExceeded
  | other (code : Nat)
deriving DecidableEq

/-- A Go `error`: `none` is `nil`. -/
abbrev GoErr := Option RpcErr

/-- One millisecond in nanoseconds (`time.Millisecond`). -/
def millisecond : Int := 1000000

/-- One second in nanoseconds (`time.Second`). -/
def second : Int := 1000000000

/-- Call payloads; `empty` models `struct{}{}` (the zero-payload probe). -/
inductive Payload where
  | empty
  | value (n : Nat)
deriving DecidableEq

/-- The heap of external `net/rpc` client sessions.  Session ids are
indices into `sessions`; the stored Bool is the session's `closing`
flag (set once its `Close` has been attempted, or when the transport
shut down).  Fresh sessions are appended, so ids are never reused. -/
structure SessHeap where
  sessions : List Bool
deriving DecidableEq

/-- Whether session `sid` has its `closing` flag set. -/
def sessClosing (heap : SessHeap) (sid : Nat) : Bool :=
  heap.sessions.getD sid false

/-- Model of `net/rpc.Client.Close` on session `sid`: if the session is
already closing it returns `ErrShutdown` and changes nothing; otherwise
it sets the closing flag and returns the codec's close result
(environment-supplied `codecErr`). -/
def rpcClientClose (heap : SessHeap) (sid : Nat) (codecErr : GoErr) : SessHeap × GoErr :=
  if sessClosing heap sid then (heap, some RpcErr.shutdown)
  else (⟨heap.sessions.set sid true⟩, codecErr)

/-- Model of the terminal error of a `net/rpc` call on session `sid`:
`ErrShutdown` when the session is closing, otherwise the
environment-supplied remote result. -/
def rpcClientCall (heap : SessHeap) (sid : Nat) (remoteResult : GoErr) : GoErr :=
  if sessClosing heap sid then some RpcErr.shutdown else remoteResult

/-- Logger values (client.go lines 74-93); behaviour is side-effecting
output only, so identity is all the model needs. -/
inductive LoggerV where
  | default
  | custom (id : Nat)
deriving DecidableEq

/-- Ping handler values (client.go line 95): either the package's
`defaultPingHandler` or an opaque user handler.  A user handler acts on
the client only through the public API, so its actions are covered by
the operation traces below. -/
inductive PingTag where
  | default
  | custom (id : Nat)
deriving DecidableEq

/-- `dialOptions` (client.go lines 37-48).  Interceptors are opaque user
functions, modelled by presence tags; their semantics is a parameter of
`Client.CallContext` / `Client.GoContext`. -/
structure dialOptions where
  network : String := ""
  address : String := ""
  timeout : Int := 0
  block : Bool := false
  logger : Option LoggerV := none
  pingServiceMethod : String := ""
  pingInterval : Int := 0
  pingHandler : Option PingTag := none
  callInterceptor : Option Nat := none
  goInterceptor : Option Nat := none
deriving DecidableEq

/-- The wrapper `Client` struct (client.go lines 20-27).  `client` is
the atomically-swappable session reference (`none` models the nil
pointer). -/
structure Client where
  client : Option Nat
  closeCanBeCalled : Bool
  closed : Bool
  dialOptions : dialOptions
deriving DecidableEq

/-- `Client.getClient` (client.go lines 29-31): atomic load of the
session reference. -/
def Client.getClient (st : Client) : Option Nat := st.client

/-- The deep embedding of the `DialOption` closures
(client.go lines 50-136). -/
inductive DialOption where
  | withNetworkAddress (network address : String)
  | WithTimeout (d : Int)
  | WithBlock
  | WithLogger (l : Option LoggerV)
  | WithHeartbeat (pingServiceMethod : String) (interval : Int) (handler : Option PingTag)
  | WithCallInterceptor (i : Option Nat)
  | WithGoInterceptor (i : Option Nat)
deriving DecidableEq

/-- Application of one `DialOption` to a `dialOptions`, following each
option constructor in client.go: `WithTimeout` substitutes 5s for a
non-positive duration (lines 59-66); `WithLogger` ignores nil (86-93);
`WithHeartbeat` ignores an empty method name, substitutes 500ms for a
non-positive interval and the default handler for nil (97-112); the
interceptor options ignore nil (117-136). -/
def applyOpt (o : dialOptions) : DialOption → dialOptions
  | .withNetworkAddress n a => { o with network := n, address := a }
  | .WithTimeout d => { o with timeout := if d ≤ 0 then 5 * second else d }
  | .WithBlock => { o with block := true }
  | .WithLogger none => o
  | .WithLogger (some lg) => { o with logger := some lg }
  | .WithHeartbeat m i h =>
      if m = "" then o
      else { o with pingServiceMethod := m,
                    pingInterval := if i ≤ 0 then 500 * millisecond else i,
                    pingHandler := some (h.getD PingTag.default) }
  | .WithCallInterceptor none => o
  | .WithCallInterceptor (some n) => { o with callInterceptor := some n }
  | .WithGoInterceptor none => o
  | .WithGoInterceptor (some n) => { o with goInterceptor := some n }

/-- The `net.Dialer` built by `Client.Reset` (client.go lines 222-226):
configured timeout, 30s keep-alive, dual-stack. -/
structure DialerCfg where
  timeout : Int
  keepAlive : Int
  dualStack : Bool
deriving DecidableEq

/-- The dialer configuration Reset uses for a given option set. -/
def dialerOf (o : dialOptions) : DialerCfg :=
  { timeout := o.timeout, keepAlive := 30 * second, dualStack := true }

/-- Environment for one `Reset`: the codec-close result of the old
session (if one is closed) and the dial outcome (`some e` = dial error,
`none` = success). -/
structure ResetEnv where
  closeCodecErr : GoErr
  dialErr : Option RpcErr
deriving DecidableEq

/-- The dial-and-install tail of `Client.Reset` (client.go lines
222-233): on dial failure return the error unchanged; on success set
`closeCanBeCalled`, append a fresh session and store its reference. -/
def resetDial (st : Client) (heap : SessHeap) (env : ResetEnv) : Client × SessHeap × GoErr :=
  match env.dialErr with
  | some e => (st, heap, some e)
  | none =>
      ({ st with closeCanBeCalled := true, client := some heap.sessions.length },
       ⟨heap.sessions ++ [false]⟩, none)

/-- `Client.Reset` (client.go lines 209-234): fail with `ErrShutdown`
when closed; otherwise close a held session first (clearing
`closeCanBeCalled`, tolerating `ErrShutdown`, aborting on any other
close error), then dial and install. -/
def Client.Reset (st : Client) (heap : SessHeap) (env : ResetEnv) : Client × SessHeap × GoErr :=
  if st.closed then (st, heap, some RpcErr.shutdown)
  else
    match st.getClient with
    | none => resetDial st heap env
    | some sid =>
        let st1 := { st with closeCanBeCalled := false }
        let r := rpcClientClose heap sid env.closeCodecErr
        match r.2 with
        | none => resetDial st1 r.1 env
        | some e =>
            if e = RpcErr.shutdown then resetDial st1 r.1 env
            else (st1, r.1, some e)

/-- `Client.Close` (client.go lines 236-250): set `closed`; with no
session return `ErrShutdown`; with `closeCanBeCalled` false flip it back
and return nil without touching the session; otherwise forward the close
to the session and return its result. -/
def Client.Close (st : Client) (heap : SessHeap) (codecErr : GoErr) : Client × SessHeap × GoErr :=
  let st1 := { st with closed := true }
  match st1.getClient with
  | none => (st1, heap, some RpcErr.shutdown)
  | some sid =>
      if st1.closeCanBeCalled = false then
        ({ st1 with closeCanBeCalled := true }, heap, none)
      else
        let r := rpcClientClose heap sid codecErr
        (st1, r.1, r.2)

/-- `Client.RemoteAddress` (client.go lines 252-254). -/
def Client.RemoteAddress (st : Client) : String := st.dialOptions.address

/-- A `context.Context` as the dispatcher observes it: whether it is
`context.Background()`, whether its `Done` channel wins the select race
against the call, the error it carries once fired, its deadline offset
when it has one, and the peer address attached by the interceptor
wrapping. -/
structure Ctx where
  isBackground : Bool
  fires : Bool
  err : RpcErr
  timeoutNs : Option Int
  peerAddr : Option String
deriving DecidableEq

/-- `context.Background()`: never fires. -/
def background : Ctx :=
  { isBackground := true, fires := false, err := RpcErr.canceled,
    timeoutNs := none, peerAddr := none }

/-- `peer.NewContext(ctx, address)` as used by the interceptor paths
(client.go lines 262 and 291). -/
def peerCtx (ctx : Ctx) (addr : String) : Ctx := { ctx with peerAddr := some addr }

/-- Environment for one synchronous call: the remote's result. -/
structure CallEnv where
  remoteResult : GoErr
deriving DecidableEq

/-- `Client.callContext` (client.go lines 268-283): nil session fails
with `ErrShutdown`; a background context waits for the call; otherwise
the call's completion races the context's `Done` channel. -/
def Client.callContext (st : Client) (heap : SessHeap) (ctx : Ctx)
    (serviceMethod : String) (args : Payload) (env : CallEnv) : GoErr :=
  match st.getClient with
  | none => some RpcErr.shutdown
  | some sid =>
      if ctx.isBackground then rpcClientCall heap sid env.remoteResult
      else if ctx.fires then some ctx.err
      else rpcClientCall heap sid env.remoteResult

/-- Semantics of an opaque user call interceptor. -/
abbrev CallInterceptorSem := Ctx → String → Payload → GoErr

/-- `Client.CallContext` (client.go lines 260-266): with an interceptor
configured, the (opaque) interceptor runs on the peer-enriched context;
otherwise dispatch goes straight to `callContext`. -/
def Client.CallContext (icSem : CallInterceptorSem) (st : Client) (heap : SessHeap)
    (ctx : Ctx) (serviceMethod : String) (args : Payload) (env : CallEnv) : GoErr :=
  match st.dialOptions.callInterceptor with
  | some _ => icSem (peerCtx ctx st.dialOptions.address) serviceMethod args
  | none => Client.callContext st heap ctx serviceMethod args env

/-- `Client.Call` (client.go lines 256-258): `CallContext` on
`context.Background()`. -/
def Client.Call (icSem : CallInterceptorSem) (st : Client) (heap : SessHeap)
    (serviceMethod : String) (args : Payload) (env : CallEnv) : GoErr :=
  Client.CallContext icSem st heap background serviceMethod args env

/-- The `*rpc.Call` future a `Go`-style entry point returns: its method
and args, the terminal error it (eventually) carries, whether its `Done`
channel already holds the completed call when the future is returned,
and whether the wrapper synthesized it rather than the transport. -/
structure FutureCall where
  serviceMethod : String
  args : Payload
  err : GoErr
  completedAtReturn : Bool
  synthetic : Bool
deriving DecidableEq

/-- Environment for one asynchronous call: the remote's result, and
whether the transport's own future happened to be completed already by
the time it was returned. -/
structure GoEnv where
  remoteResult : GoErr
  doneAtReturn : Bool
deriving DecidableEq

/-- Model of `rpc.Client.Go` on session `sid`: the transport's future.
On a closing session it completes immediately with `ErrShutdown`;
otherwise its terminal error is the remote result and its completion
time is environmental. -/
def transportGo (heap : SessHeap) (sid : Nat) (serviceMethod : String) (args : Payload)
    (env : GoEnv) : FutureCall :=
  { serviceMethod := serviceMethod, args := args,
    err := rpcClientCall heap sid env.remoteResult,
    completedAtReturn := if sessClosing heap sid then true else env.doneAtReturn,
    synthetic := false }

/-- A future the wrapper itself builds (client.go lines 300-308 and
321-329): buffered `Done`, already completed, carrying error `e`. -/
def syntheticCall (serviceMethod : String) (args : Payload) (e : RpcErr) : FutureCall :=
  { serviceMethod := serviceMethod, args := args, err := some e,
    completedAtReturn := true, synthetic := true }

/-- `Client.goContext` (client.go lines 297-331): nil session yields a
synthetic completed `ErrShutdown` future; a background context delegates
directly to the transport; otherwise the delegation races the context
and a winning context yields a synthetic completed future with the
context's error. -/
def Client.goContext (st : Client) (heap : SessHeap) (ctx : Ctx)
    (serviceMethod : String) (args : Payload) (env : GoEnv) : FutureCall :=
  match st.getClient with
  | none => syntheticCall serviceMethod args RpcErr.shutdown
  | some sid =>
      if ctx.isBackground then transportGo heap sid serviceMethod args env
      else if ctx.fires then syntheticCall serviceMethod args ctx.err
      else transportGo heap sid serviceMethod args env

/-- Semantics of an opaque user go interceptor. -/
abbrev GoInterceptorSem := Ctx → String → Payload → FutureCall

/-- `Client.GoContext` (client.go lines 289-295). -/
def Client.GoContext (gSem : GoInterceptorSem) (st : Client) (heap : SessHeap)
    (ctx : Ctx) (serviceMethod : String) (args : Payload) (env : GoEnv) : FutureCall :=
  match st.dialOptions.goInterceptor with
  | some _ => gSem (peerCtx ctx st.dialOptions.address) serviceMethod args
  | none => Client.goContext st heap ctx serviceMethod args env

/-- `Client.Go` (client.go lines 285-287): `GoContext` on
`context.Background()`. -/
def Client.Go (gSem : GoInterceptorSem) (st : Client) (heap : SessHeap)
    (serviceMethod : String) (args : Payload) (env : GoEnv) : FutureCall :=
  Client.GoContext gSem st heap background serviceMethod args env

/-- Observable effect of a ping handler run: whether it called `Reset`
and whether it logged. -/
structure HandlerEffect where
  didReset : Bool
  logged : Bool
deriving DecidableEq

/-- `defaultPingHandler` (client.go lines 188-200): nil result does
nothing; a non-`ErrShutdown` error only logs; `ErrShutdown` triggers
`Reset`, logging exactly when the `Reset` fails. -/
def defaultPingHandler (result : GoErr) (st : Client) (heap : SessHeap) (renv : ResetEnv) :
    Client × SessHeap × HandlerEffect :=
  match result with
  | none => (st, heap, ⟨false, false⟩)
  | some e =>
      if e ≠ RpcErr.shutdown then (st, heap, ⟨false, true⟩)
      else
        let r := Client.Reset st heap renv
        (r.1, r.2.1, ⟨true, (r.2.2).isSome⟩)

/-- The context `Client.ping` builds (client.go line 203):
`context.WithTimeout(context.Background(), 3*time.Second)`; whether it
fires before the probe completes is environmental, and when it fires it
carries `DeadlineExceeded`. -/
def pingCtx (fires : Bool) : Ctx :=
  { isBackground := false, fires := fires, err := RpcErr.deadlineExceeded,
    timeoutNs := some (3 * second), peerAddr := none }

/-- Environment for one monitor tick. -/
structure TickEnv where
  pingFires : Bool
  remoteResult : GoErr
  resetEnv : ResetEnv
deriving DecidableEq

/-- `Client.ping` (client.go lines 202-207): one empty-payload probe of
the configured method through `callContext` under the 3s context. -/
def Client.ping (st : Client) (heap : SessHeap) (env : TickEnv) : GoErr :=
  Client.callContext st heap (pingCtx env.pingFires)
    st.dialOptions.pingServiceMethod Payload.empty ⟨env.remoteResult⟩

/-- What one monitor tick did: whether the loop returned for good, how
many probes it issued, and the argument the handler was invoked with
(`none` when the handler was not invoked). -/
structure TickObs where
  terminated : Bool
  probes : Nat
  handlerArg : Option GoErr
deriving DecidableEq

/-- One iteration of `Client.monitor`'s loop (client.go lines 176-185):
read `closed` under the lock and return permanently if set; otherwise
ping once and hand the result to the handler.  The state change of the
default handler is `defaultPingHandler`; an opaque custom handler acts
only through the public API, so its actions are represented by ordinary
trace operations and the tick itself leaves the state unchanged. -/
def Client.monitorTick (st : Client) (heap : SessHeap) (env : TickEnv) :
    Client × SessHeap × TickObs :=
  if st.closed then (st, heap, ⟨true, 0, none⟩)
  else
    let pr := Client.ping st heap env
    if st.dialOptions.pingHandler = some PingTag.default then
      let r := defaultPingHandler pr st heap env.resetEnv
      (r.1, r.2.1, ⟨false, 1, some pr⟩)
    else
      (st, heap, ⟨false, 1, some pr⟩)

/-- The client state `Dial` (client.go lines 138-148) builds before its
first connect: options folded left over the argument list with the
network address appended, the default logger filled in, the session
reference nil and `closeCanBeCalled` set. -/
def mkClient (network address : String) (opts : List DialOption) : Client :=
  let o := (opts ++ [DialOption.withNetworkAddress network address]).foldl applyOpt {}
  let o2 := if o.logger = none then applyOpt o (DialOption.WithLogger (some LoggerV.default)) else o
  { client := none, closeCanBeCalled := true, closed := false, dialOptions := o2 }

/-- Whether `Dial` starts the heartbeat monitor (client.go line 161). -/
def monitorStarts (o : dialOptions) : Bool :=
  decide (o.pingServiceMethod ≠ "") && decide (0 < o.pingInterval)

/-- `Dial` (client.go lines 138-165).  In blocking mode the first
`Reset` runs before returning and its failure aborts the construction;
in non-blocking mode the client is returned at once and the background
`Reset` is a later trace operation.  The returned Bool is whether the
monitor task was started. -/
def Dial (network address : String) (opts : List DialOption) (heap : SessHeap)
    (env : ResetEnv) : Except RpcErr (Client × SessHeap × Bool) :=
  let st := mkClient network address opts
  if st.dialOptions.block then
    match Client.Reset st heap env with
    | (_, _, some e) => Except.error e
    | (st1, heap1, none) => Except.ok (st1, heap1, monitorStarts st1.dialOptions)
  else
    Except.ok (st, heap, monitorStarts st.dialOptions)

/-- One serialized operation against the client, with its environment.
Lifecycle transitions are serialized by the mutex in the source; calls
read the session reference atomically and never write the client state,
so interleaving them as atomic trace steps is faithful. -/
inductive Op where
  | reset (env : ResetEnv)
  | close (codecErr : GoErr)
  | call (ctx : Ctx) (serviceMethod : String) (args : Payload) (env : CallEnv)
  | goCall (ctx : Ctx) (serviceMethod : String) (args : Payload) (env : GoEnv)
  | tick (env : TickEnv)

/-- State transition of one operation. -/
def step (st : Client) (heap : SessHeap) : Op → Client × SessHeap
  | .reset env => ((Client.Reset st heap env).1, (Client.Reset st heap env).2.1)
  | .close codecErr => ((Client.Close st heap codecErr).1, (Client.Close st heap codecErr).2.1)
  | .call _ _ _ _ => (st, heap)
  | .goCall _ _ _ _ => (st, heap)
  | .tick env => ((Client.monitorTick st heap env).1, (Client.monitorTick st heap env).2.1)

/-- A trace of operations, executed in order. -/
def run (st : Client) (heap : SessHeap) : List Op → Client × SessHeap
  | [] => (st, heap)
  | op :: ops => run (step st heap op).1 (step st heap op).2 ops

/-- State and heap after a `Close` followed by an arbitrary trace. -/
def afterCloseRun (st : Client) (heap : SessHeap) (codecErr : GoErr) (ops : List Op) :
    Client × SessHeap :=
  run (Client.Close st heap codecErr).1 (Client.Close st heap codecErr).2.1 ops

/-- The close-permission invariant: a held session reference is in range
of the heap, and whenever `closeCanBeCalled` is false the held session
(if any) has already had its close attempted. -/
def InvHolds (st : Client) (heap : SessHeap) : Bool :=
  match st.client with
  | none => true
  | some sid => decide (sid < heap.sessions.length) && (st.closeCanBeCalled || sessClosing heap sid)

/-- The shut-down state predicate: `closed` is set and any held session
has its closing flag set. -/
def ClosedDown (st : Client) (heap : SessHeap) : Bool :=
  st.closed && (match st.client with
    | none => true
    | some sid => sessClosing heap sid)

theorem getD_set_self (l : List Bool) (i : Nat) (h : i < l.length) :
    (l.set i true).getD i false = true := by
  induction l generalizing i with
  | nil => simp at h
  | cons a t ih =>
      cases i with
      | zero => simp
      | succ n => simpa using ih n (by simpa using h)

theorem resetDial_inv (st : Client) (heap : SessHeap) (env : ResetEnv)
    (hInv : InvHolds st heap = true) :
    InvHolds (resetDial st heap env).1 (resetDial st heap env).2.1 = true := by
  obtain ⟨c, ccbc, cl, opts⟩ := st
  obtain ⟨sessions⟩ := heap
  obtain ⟨ce, de⟩ := env
  cases de with
  | some e => simpa [resetDial] using hInv
  | none => simp [resetDial, InvHolds, Nat.lt_succ_self]

theorem reset_preserves_inv (st : Client) (heap : SessHeap) (env : ResetEnv)
    (hInv : InvHolds st heap = true) :
    InvHolds (Client.Reset st heap env).1 (Client.Reset st heap env).2.1 = true := by
  obtain ⟨c, ccbc, cl, opts⟩ := st
  cases cl with
  | true => simpa [Client.Reset] using hInv
  | false =>
    cases c with
    | none =>
        simp only [Client.Reset, Client.getClient, Bool.false_eq_true, if_false]
        exact resetDial_inv _ _ _ hInv
    | some sid =>
        simp only [InvHolds, Bool.and_eq_true, decide_eq_true_eq, Bool.or_eq_true] at hInv
        obtain ⟨hlt, hor⟩ := hInv
        have hinv1 : InvHolds ⟨some sid, false, false, opts⟩ (rpcClientClose heap sid env.closeCodecErr).1 = true := by
          unfold rpcClientClose
          cases hcls : sessClosing heap sid with
          | true => simp [InvHolds, hlt, hcls]
          | false =>
              simp [InvHolds, hcls, hlt, sessClosing, getD_set_self _ _ hlt]
        simp only [Client.Reset, Client.getClient]
        cases hr : (rpcClientClose heap sid env.closeCodecErr).2 with
        | none =>
            simp only [hr]
            exact resetDial_inv _ _ env hinv1
        | some e =>
            by_cases he : e = RpcErr.shutdown
            · simp only [hr, he, if_pos rfl, reduceIte]
              exact resetDial_inv _ _ env hinv1
            · simp only [hr, if_neg he]
              exact hinv1

theorem close_preserves_inv (st : Client) (heap : SessHeap) (e : GoErr)
    (hInv : InvHolds st heap = true) :
    InvHolds (Client.Close st heap e).1 (Client.Close st heap e).2.1 = true := by
  obtain ⟨c, ccbc, cl, opts⟩ := st
  cases c with
  | none => simp [Client.Close, Client.getClient, InvHolds]
  | some sid =>
      simp only [InvHolds, Bool.and_eq_true, decide_eq_true_eq, Bool.or_eq_true] at hInv
      obtain ⟨hlt, hor⟩ := hInv
      cases ccbc with
      | false => simp [Client.Close, Client.getClient, InvHolds, hlt]
      | true =>
          cases hcls : sessClosing heap sid with
          | true => simp [Client.Close, Client.getClient, InvHolds, rpcClientClose, hcls, hlt]
          | false => simp [Client.Close, Client.getClient, InvHolds, rpcClientClose, hcls, hlt]

theorem pingHandler_preserves_inv (r : GoErr) (st : Client) (heap : SessHeap) (renv : ResetEnv)
    (hInv : InvHolds st heap = true) :
    InvHolds (defaultPingHandler r st heap renv).1 (defaultPingHandler r st heap renv).2.1 = true := by
  unfold defaultPingHandler
  cases r with
  | none => simpa using hInv
  | some e =>
      by_cases he : e = RpcErr.shutdown
      · simp only [he, ne_eq, not_true_eq_false, if_false, reduceIte]
        exact reset_preserves_inv st heap renv hInv
      · simp only [ne_eq, he, not_false_eq_true, if_true, reduceIte]
        exact hInv

theorem tick_preserves_inv (st : Client) (heap : SessHeap) (env : TickEnv)
    (hInv : InvHolds st heap = true) :
    InvHolds (Client.monitorTick st heap env).1 (Client.monitorTick st heap env).2.1 = true := by
  unfold Client.monitorTick
  cases hcl : st.closed with
  | true => simpa [hcl] using hInv
  | false =>
      by_cases hh : st.dialOptions.pingHandler = some PingTag.default
      · simp only [hcl, hh, Bool.false_eq_true, if_false, if_pos rfl, reduceIte]
        exact pingHandler_preserves_inv _ st heap env.resetEnv hInv
      · simpa [hcl, hh] using hInv

theorem step_preserves_inv (st : Client) (heap : SessHeap) (op : Op)
    (hInv : InvHolds st heap = true) :
    InvHolds (step st heap op).1 (step st heap op).2 = true := by
  cases op with
  | reset env => exact reset_preserves_inv st heap env hInv
  | close e => exact close_preserves_inv st heap e hInv
  | call ctx m a env => simpa [step] using hInv
  | goCall ctx m a env => simpa [step] using hInv
  | tick env => exact tick_preserves_inv st heap env hInv

theorem step_closed (st : Client) (heap : SessHeap) (op : Op) (h : st.closed = true) :
    (step st heap op).1.closed = true := by
  cases op with
  | reset env => simp [step, Client.Reset, h]
  | close e =>
      obtain ⟨c, ccbc, cl, opts⟩ := st
      cases c <;> cases ccbc <;> simp [step, Client.Close, Client.getClient]
  | call ctx m a env => simpa [step] using h
  | goCall ctx m a env => simpa [step] using h
  | tick env => simp [step, Client.monitorTick, h]

theorem run_closed (ops : List Op) : ∀ (st : Client) (heap : SessHeap),
    st.closed = true → (run st heap ops).1.closed = true := by
  induction ops with
  | nil => intro st heap h; simpa [run] using h
  | cons op ops ih => intro st heap h; exact ih _ _ (step_closed st heap op h)

theorem closedDown_closed (st : Client) (heap : SessHeap) (h : ClosedDown st heap = true) :
    st.closed = true := by
  simp only [ClosedDown, Bool.and_eq_true] at h
  exact h.1

theorem closedDown_step (st : Client) (heap : SessHeap) (op : Op)
    (h : ClosedDown st heap = true) :
    ClosedDown (step st heap op).1 (step st heap op).2 = true ∧
    (step st heap op).2.sessions.length = heap.sessions.length := by
  have hcl : st.closed = true := closedDown_closed st heap h
  cases op with
  | reset env => simpa [step, Client.Reset, hcl] using h
  | call ctx m a env => simpa [step] using h
  | goCall ctx m a env => simpa [step] using h
  | tick env => simpa [step, Client.monitorTick, hcl] using h
  | close e =>
      obtain ⟨c, ccbc, cl, opts⟩ := st
      cases c with
      | none => simpa [step, Client.Close, Client.getClient, ClosedDown] using h
      | some sid =>
          simp only [ClosedDown, Bool.and_eq_true] at h
          have hcls : sessClosing heap sid = true := h.2
          cases ccbc with
          | false =>
              simpa [step, Client.Close, Client.getClient, ClosedDown, hcls] using rfl
          | true =>
              simp [step, Client.Close, Client.getClient, ClosedDown, rpcClientClose, hcls]

theorem closedDown_run (ops : List Op) : ∀ (st : Client) (heap : SessHeap),
    ClosedDown st heap = true →
    ClosedDown (run st heap ops).1 (run st heap ops).2 = true ∧
    (run st heap ops).2.sessions.length = heap.sessions.length := by
  induction ops with
  | nil => intro st heap h; exact ⟨by simpa [run] using h, rfl⟩
  | cons op ops ih =>
      intro st heap h
      obtain ⟨h1, h2⟩ := closedDown_step st heap op h
      obtain ⟨h3, h4⟩ := ih _ _ h1
      exact ⟨h3, by rw [run]; omega⟩

theorem reset_opts (st : Client) (heap : SessHeap) (env : ResetEnv) :
    (Client.Reset st heap env).1.dialOptions = st.dialOptions := by
  dsimp only [Client.Reset, resetDial]
  repeat' split <;> try rfl

theorem close_opts (st : Client) (heap : SessHeap) (e : GoErr) :
    (Client.Close st heap e).1.dialOptions = st.dialOptions := by
  dsimp only [Client.Close]
  repeat' split <;> try rfl

theorem pingHandler_opts (r : GoErr) (st : Client) (heap : SessHeap) (renv : ResetEnv) :
    (defaultPingHandler r st heap renv).1.dialOptions = st.dialOptions := by
  dsimp only [defaultPingHandler]
  repeat' split <;> try rfl
  exact reset_opts st heap renv

theorem tick_opts (st : Client) (heap : SessHeap) (env : TickEnv) :
    (Client.monitorTick st heap env).1.dialOptions = st.dialOptions := by
  dsimp only [Client.monitorTick]
  repeat' split <;> try rfl
  exact pingHandler_opts _ st heap env.resetEnv

theorem step_opts (st : Client) (heap : SessHeap) (op : Op) :
    (step st heap op).1.dialOptions = st.dialOptions := by
  cases op with
  | reset env => exact reset_opts st heap env
  | close e => exact close_opts st heap e
  | call ctx m a env => rfl
  | goCall ctx m a env => rfl
  | tick env => exact tick_opts st heap env

theorem run_opts (ops : List Op) : ∀ (st : Client) (heap : SessHeap),
    (run st heap ops).1.dialOptions = st.dialOptions := by
  induction ops with
  | nil => intro st heap; rfl
  | cons op ops ih =>
      intro st heap
      rw [run, ih, step_opts]

theorem sessClosing_set_self (heap : SessHeap) (sid : Nat) (h : sid < heap.sessions.length) :
    sessClosing ⟨heap.sessions.set sid true⟩ sid = true := by
  simpa [sessClosing] using getD_set_self heap.sessions sid h

theorem close_sets_closed (st : Client) (heap : SessHeap) (e : GoErr) :
    (Client.Close st heap e).1.closed = true := by
  obtain ⟨c, ccbc, cl, opts⟩ := st
  cases c <;> cases ccbc <;> simp [Client.Close, Client.getClient]

theorem close_closedDown (st : Client) (heap : SessHeap) (e : GoErr)
    (hInv : InvHolds st heap = true) :
    ClosedDown (Client.Close st heap e).1 (Client.Close st heap e).2.1 = true := by
  obtain ⟨c, ccbc, cl, opts⟩ := st
  cases c with
  | none => simp [Client.Close, Client.getClient, ClosedDown]
  | some sid =>
      simp only [InvHolds, Bool.and_eq_true, decide_eq_true_eq, Bool.or_eq_true] at hInv
      obtain ⟨hlt, hor⟩ := hInv
      cases ccbc with
      | false =>
          have hcls : sessClosing heap sid = true := by
            rcases hor with h | h
            · exact absurd h (by simp)
            · exact h
          simp [Client.Close, Client.getClient, ClosedDown, hcls]
      | true =>
          cases hcls : sessClosing heap sid with
          | true => simp [Client.Close, Client.getClient, ClosedDown, rpcClientClose, hcls]
          | false =>
              simp [Client.Close, Client.getClient, ClosedDown, rpcClientClose, hcls,
                sessClosing_set_self heap sid hlt]

theorem closed_reset (st : Client) (heap : SessHeap) (env : ResetEnv)
    (h : st.closed = true) :
    Client.Reset st heap env = (st, heap, some RpcErr.shutdown) := by
  simp [Client.Reset, h]

theorem closedDown_callContext (st : Client) (heap : SessHeap) (ctx : Ctx)
    (m : String) (a : Payload) (env : CallEnv)
    (h : ClosedDown st heap = true)
    (hc : ctx.isBackground = true ∨ ctx.fires = false) :
    Client.callContext st heap ctx m a env = some RpcErr.shutdown := by
  obtain ⟨c, ccbc, cl, opts⟩ := st
  cases c with
  | none => rfl
  | some sid =>
      simp only [ClosedDown, Bool.and_eq_true] at h
      have hcls : sessClosing heap sid = true := h.2
      rcases hc with hbg | hnf
      · simp [Client.callContext, Client.getClient, hbg, rpcClientCall, hcls]
      · cases hbg2 : ctx.isBackground with
        | true => simp [Client.callContext, Client.getClient, hbg2, rpcClientCall, hcls]
        | false => simp [Client.callContext, Client.getClient, hbg2, hnf, rpcClientCall, hcls]

/-- Claim C1: once `Close` has returned, `closed` stays true across any
later trace of operations, no new session is ever created (the session
count is unchanged and `Reset` fails with `ErrShutdown`, leaving state
and heap untouched), and every subsequent `Call` returns `ErrShutdown`. -/
theorem C1_close_is_final (st : Client) (heap : SessHeap) (codecErr : GoErr) (ops : List Op)
    (renv : ResetEnv) (icSem : CallInterceptorSem) (m : String) (a : Payload) (cenv : CallEnv)
    (hInv : InvHolds st heap = true)
    (hIc : st.dialOptions.callInterceptor = none) :
    (afterCloseRun st heap codecErr ops).1.closed = true ∧
    (afterCloseRun st heap codecErr ops).2.sessions.length
      = (Client.Close st heap codecErr).2.1.sessions.length ∧
    Client.Reset (afterCloseRun st heap codecErr ops).1 (afterCloseRun st heap codecErr ops).2 renv
      = ((afterCloseRun st heap codecErr ops).1, (afterCloseRun st heap codecErr ops).2,
         some RpcErr.shutdown) ∧
    Client.Call icSem (afterCloseRun st heap codecErr ops).1 (afterCloseRun st heap codecErr ops).2
        m a cenv
      = some RpcErr.shutdown := by
  have h0 : ClosedDown (Client.Close st heap codecErr).1 (Client.Close st heap codecErr).2.1
      = true := close_closedDown st heap codecErr hInv
  obtain ⟨h1, h2⟩ := closedDown_run ops _ _ h0
  have hcl := closedDown_closed _ _ h1
  refine ⟨hcl, h2, closed_reset _ _ renv hcl, ?_⟩
  have hopts : (afterCloseRun st heap codecErr ops).1.dialOptions = st.dialOptions := by
    unfold afterCloseRun
    rw [run_opts, close_opts]
  unfold Client.Call Client.CallContext
  rw [hopts, hIc]
  exact closedDown_callContext _ _ background m a cenv h1 (Or.inl rfl)

/-- Witness for C1 at a concrete client: fresh client with no session,
closed, then one attempted reset in the trace. -/
theorem C1_close_is_final_witness :
    InvHolds ⟨none, true, false, {}⟩ ⟨[]⟩ = true ∧
    (Client.dialOptions ⟨none, true, false, {}⟩).callInterceptor = none ∧
    ((afterCloseRun ⟨none, true, false, {}⟩ ⟨[]⟩ none [Op.reset ⟨none, none⟩]).1.closed = true ∧
     (afterCloseRun ⟨none, true, false, {}⟩ ⟨[]⟩ none [Op.reset ⟨none, none⟩]).2.sessions.length
       = (Client.Close ⟨none, true, false, {}⟩ ⟨[]⟩ none).2.1.sessions.length ∧
     Client.Reset (afterCloseRun ⟨none, true, false, {}⟩ ⟨[]⟩ none [Op.reset ⟨none, none⟩]).1
         (afterCloseRun ⟨none, true, false, {}⟩ ⟨[]⟩ none [Op.reset ⟨none, none⟩]).2 ⟨none, none⟩
       = ((afterCloseRun ⟨none, true, false, {}⟩ ⟨[]⟩ none [Op.reset ⟨none, none⟩]).1,
          (afterCloseRun ⟨none, true, false, {}⟩ ⟨[]⟩ none [Op.reset ⟨none, none⟩]).2,
          some RpcErr.shutdown) ∧
     Client.Call (fun _ _ _ => none)
         (afterCloseRun ⟨none, true, false, {}⟩ ⟨[]⟩ none [Op.reset ⟨none, none⟩]).1
         (afterCloseRun ⟨none, true, false, {}⟩ ⟨[]⟩ none [Op.reset ⟨none, none⟩]).2
         "Arith.Ping" Payload.empty ⟨none⟩
       = some RpcErr.shutdown) :=
  ⟨by decide, by decide,
   C1_close_is_final ⟨none, true, false, {}⟩ ⟨[]⟩ none [Op.reset ⟨none, none⟩] ⟨none, none⟩
     (fun _ _ _ => none) "Arith.Ping" Payload.empty ⟨none⟩ (by decide) (by decide)⟩

/-- Claim C3: `Close` always sets `closed`; with no session it returns
`ErrShutdown`; with the close permission consumed it flips the
permission back and returns nil without touching the session; otherwise
it forwards the close to the session and returns that result; and a
second `Close` returns `ErrShutdown` or nil, never another error. -/
theorem C3_close_behaviour (st : Client) (heap : SessHeap) (e e2 : GoErr)
    (hInv : InvHolds st heap = true) :
    (Client.Close st heap e).1.closed = true ∧
    (st.client = none →
      Client.Close st heap e = ({ st with closed := true }, heap, some RpcErr.shutdown)) ∧
    (∀ sid, st.client = some sid → st.closeCanBeCalled = false →
      Client.Close st heap e
        = ({ st with closed := true, closeCanBeCalled := true }, heap, none)) ∧
    (∀ sid, st.client = some sid → st.closeCanBeCalled = true →
      (Client.Close st heap e).2 = rpcClientClose heap sid e) ∧
    ((Client.Close (Client.Close st heap e).1 (Client.Close st heap e).2.1 e2).2.2
        = some RpcErr.shutdown ∨
     (Client.Close (Client.Close st heap e).1 (Client.Close st heap e).2.1 e2).2.2 = none) := by
  refine ⟨close_sets_closed st heap e, ?_, ?_, ?_, ?_⟩
  · intro hc
    obtain ⟨c, ccbc, cl, opts⟩ := st
    simp only at hc
    subst hc
    rfl
  · intro sid hc hf
    obtain ⟨c, ccbc, cl, opts⟩ := st
    simp only at hc hf
    subst hc
    subst hf
    rfl
  · intro sid hc ht
    obtain ⟨c, ccbc, cl, opts⟩ := st
    simp only at hc ht
    subst hc
    subst ht
    rfl
  · obtain ⟨c, ccbc, cl, opts⟩ := st
    cases c with
    | none => exact Or.inl rfl
    | some sid =>
        simp only [InvHolds, Bool.and_eq_true, decide_eq_true_eq, Bool.or_eq_true] at hInv
        obtain ⟨hlt, hor⟩ := hInv
        cases ccbc with
        | false =>
            have hcls : sessClosing heap sid = true := by
              rcases hor with h | h
              · exact absurd h (by simp)
              · exact h
            exact Or.inl (by simp [Client.Close, Client.getClient, rpcClientClose, hcls])
        | true =>
            cases hcls : sessClosing heap sid with
            | true =>
                exact Or.inl (by simp [Client.Close, Client.getClient, rpcClientClose, hcls])
            | false =>
                exact Or.inl (by
                  simp [Client.Close, Client.getClient, rpcClientClose, hcls,
                    sessClosing_set_self heap sid hlt])

/-- Witness for C3 at a concrete client holding one live session. -/
theorem C3_close_behaviour_witness :
    InvHolds ⟨some 0, true, false, {}⟩ ⟨[false]⟩ = true ∧
    ((Client.Close ⟨some 0, true, false, {}⟩ ⟨[false]⟩ none).1.closed = true ∧
     ((Client.client ⟨some 0, true, false, {}⟩) = none →
       Client.Close ⟨some 0, true, false, {}⟩ ⟨[false]⟩ none
         = ({ (⟨some 0, true, false, {}⟩ : Client) with closed := true }, ⟨[false]⟩,
            some RpcErr.shutdown)) ∧
     (∀ sid, (Client.client ⟨some 0, true, false, {}⟩) = some sid →
       (Client.closeCanBeCalled ⟨some 0, true, false, {}⟩) = false →
       Client.Close ⟨some 0, true, false, {}⟩ ⟨[false]⟩ none
         = ({ (⟨some 0, true, false, {}⟩ : Client) with
              closed := true, closeCanBeCalled := true }, ⟨[false]⟩, none)) ∧
     (∀ sid, (Client.client ⟨some 0, true, false, {}⟩) = some sid →
       (Client.closeCanBeCalled ⟨some 0, true, false, {}⟩) = true →
       (Client.Close ⟨some 0, true, false, {}⟩ ⟨[false]⟩ none).2
         = rpcClientClose ⟨[false]⟩ sid none) ∧
     ((Client.Close (Client.Close ⟨some 0, true, false, {}⟩ ⟨[false]⟩ none).1
         (Client.Close ⟨some 0, true, false, {}⟩ ⟨[false]⟩ none).2.1 none).2.2
         = some RpcErr.shutdown ∨
      (Client.Close (Client.Close ⟨some 0, true, false, {}⟩ ⟨[false]⟩ none).1
         (Client.Close ⟨some 0, true, false, {}⟩ ⟨[false]⟩ none).2.1 none).2.2 = none)) :=
  ⟨by decide, C3_close_behaviour ⟨some 0, true, false, {}⟩ ⟨[false]⟩ none none (by decide)⟩

/-- Claim C2 counterexample: a client holding session 0 whose redial
fails gets the dial error back, but a subsequent read of the session
reference still yields the old session, not empty — contradicting the
claim that the client is left without an active session reference. -/
theorem C2_counterexample :
    (Client.Reset ⟨some 0, true, false, {}⟩ ⟨[false]⟩ ⟨none, some (RpcErr.other 7)⟩).2.2
      = some (RpcErr.other 7) ∧
    ¬ (Client.Reset ⟨some 0, true, false, {}⟩ ⟨[false]⟩
        ⟨none, some (RpcErr.other 7)⟩).1.getClient = none := by
  decide

/-- Claim C2 amended: when `Reset` reaches the dial and the dial fails
(the client is not closed and any held session's close was tolerated),
it returns the dial error and installs no new session — the session
reference and the session count are unchanged, so the reference is
empty only if it already was, and a previously held session has had its
close attempted. -/
theorem C2_reset_dial_failure (st : Client) (heap : SessHeap) (env : ResetEnv) (e : RpcErr)
    (hcl : st.closed = false)
    (hde : env.dialErr = some e)
    (hce : env.closeCodecErr = none ∨ env.closeCodecErr = some RpcErr.shutdown)
    (hInv : InvHolds st heap = true) :
    (Client.Reset st heap env).2.2 = some e ∧
    (Client.Reset st heap env).1.getClient = st.getClient ∧
    (Client.Reset st heap env).2.1.sessions.length = heap.sessions.length ∧
    (∀ sid, st.client = some sid →
      sessClosing (Client.Reset st heap env).2.1 sid = true) := by
  obtain ⟨c, ccbc, cl, opts⟩ := st
  obtain ⟨ce, de⟩ := env
  simp only at hcl hde
  subst hcl
  subst hde
  cases c with
  | none => simp [Client.Reset, Client.getClient, resetDial]
  | some sid =>
      simp only [InvHolds, Bool.and_eq_true, decide_eq_true_eq, Bool.or_eq_true] at hInv
      obtain ⟨hlt, hor⟩ := hInv
      cases hcls : sessClosing heap sid with
      | true =>
          simp [Client.Reset, Client.getClient, rpcClientClose, resetDial, hcls]
      | false =>
          rcases hce with hce | hce <;> simp only at hce <;> subst hce <;>
            simp [Client.Reset, Client.getClient, rpcClientClose, resetDial, hcls,
              sessClosing_set_self heap sid hlt]

/-- Witness for C2 amended: dial failure with a live held session. -/
theorem C2_reset_dial_failure_witness :
    (Client.closed ⟨some 0, true, false, {}⟩) = false ∧
    (ResetEnv.dialErr ⟨none, some (RpcErr.other 7)⟩) = some (RpcErr.other 7) ∧
    InvHolds ⟨some 0, true, false, {}⟩ ⟨[false]⟩ = true ∧
    ((Client.Reset ⟨some 0, true, false, {}⟩ ⟨[false]⟩ ⟨none, some (RpcErr.other 7)⟩).2.2
        = some (RpcErr.other 7) ∧
     (Client.Reset ⟨some 0, true, false, {}⟩ ⟨[false]⟩
         ⟨none, some (RpcErr.other 7)⟩).1.getClient
       = (Client.getClient ⟨some 0, true, false, {}⟩) ∧
     (Client.Reset ⟨some 0, true, false, {}⟩ ⟨[false]⟩
         ⟨none, some (RpcErr.other 7)⟩).2.1.sessions.length
       = (SessHeap.sessions ⟨[false]⟩).length ∧
     (∀ sid, (Client.client ⟨some 0, true, false, {}⟩) = some sid →
       sessClosing (Client.Reset ⟨some 0, true, false, {}⟩ ⟨[false]⟩
           ⟨none, some (RpcErr.other 7)⟩).2.1 sid = true)) :=
  ⟨by decide, by decide, by decide,
   C2_reset_dial_failure ⟨some 0, true, false, {}⟩ ⟨[false]⟩ ⟨none, some (RpcErr.other 7)⟩
     (RpcErr.other 7) (by decide) (by decide) (Or.inl (by decide)) (by decide)⟩

theorem foldl_timeout (l : List DialOption) : ∀ (o : dialOptions),
    (∀ e ∈ l, ∀ d, e ≠ DialOption.WithTimeout d) →
    (l.foldl applyOpt o).timeout = o.timeout := by
  induction l with
  | nil => intro o _; rfl
  | cons x xs ih =>
      intro o h
      rw [List.foldl_cons, ih _ (fun e he d => h e (List.mem_cons_of_mem x he) d)]
      cases x with
      | WithTimeout d => exact absurd rfl (h _ (List.mem_cons_self _ _) d)
      | withNetworkAddress n a => rfl
      | WithBlock => rfl
      | WithLogger lg => cases lg <;> rfl
      | WithHeartbeat mm ii hh =>
          dsimp only [applyOpt]
          split <;> rfl
      | WithCallInterceptor ic => cases ic <;> rfl
      | WithGoInterceptor ic => cases ic <;> rfl

theorem mkClient_timeout (network address : String) (opts : List DialOption)
    (h : ∀ e ∈ opts, ∀ d, e ≠ DialOption.WithTimeout d) :
    (mkClient network address opts).dialOptions.timeout = 0 := by
  have h2 : ∀ e ∈ opts ++ [DialOption.withNetworkAddress network address],
      ∀ d, e ≠ DialOption.WithTimeout d := by
    intro e he d
    rcases List.mem_append.1 he with h3 | h3
    · exact h e h3 d
    · simp only [List.mem_singleton] at h3
      subst h3
      simp
  dsimp only [mkClient]
  split
  · rw [show ∀ (o : dialOptions),
        (applyOpt o (DialOption.WithLogger (some LoggerV.default))).timeout = o.timeout
        from fun o => rfl]
    exact foldl_timeout _ _ h2
  · exact foldl_timeout _ _ h2

/-- Claim C4 counterexample: a construction that sets no timeout option
at all dials with timeout 0, not the claimed default of 5 seconds. -/
theorem C4_counterexample :
    ¬ (dialerOf (mkClient "tcp" "127.0.0.1:9000" []).dialOptions).timeout = 5 * second := by
  decide

/-- Claim C4 amended: the 5-second timeout default applies when a
timeout option is supplied with a non-positive duration; a construction
with no timeout option dials with timeout 0 (no wrapper-imposed limit);
and a heartbeat option carrying a probe method name with a non-positive
interval installs the 500-millisecond default interval. -/
theorem C4_defaults (o : dialOptions) (d : Int) (m : String) (i : Int) (h : Option PingTag)
    (network address : String) (opts : List DialOption) :
    (d ≤ 0 → (applyOpt o (DialOption.WithTimeout d)).timeout = 5 * second) ∧
    ((∀ e ∈ opts, ∀ d2, e ≠ DialOption.WithTimeout d2) →
      (dialerOf (mkClient network address opts).dialOptions).timeout = 0) ∧
    (m ≠ "" → i ≤ 0 →
      (applyOpt o (DialOption.WithHeartbeat m i h)).pingInterval = 500 * millisecond ∧
      (applyOpt o (DialOption.WithHeartbeat m i h)).pingServiceMethod = m) := by
  refine ⟨?_, ?_, ?_⟩
  · intro hd
    simp [applyOpt, hd]
  · intro hno
    unfold dialerOf
    exact mkClient_timeout network address opts hno
  · intro hm hi
    constructor <;> simp [applyOpt, hm, hi]

/-- Witness for C4 amended at concrete options. -/
theorem C4_defaults_witness :
    ((0 : Int) ≤ 0 →
      (applyOpt {} (DialOption.WithTimeout 0)).timeout = 5 * second) ∧
    ((∀ e ∈ [DialOption.WithBlock], ∀ d2, e ≠ DialOption.WithTimeout d2) →
      (dialerOf (mkClient "tcp" "127.0.0.1:9000" [DialOption.WithBlock]).dialOptions).timeout
        = 0) ∧
    ("Arith.Ping" ≠ "" → (0 : Int) ≤ 0 →
      (applyOpt {} (DialOption.WithHeartbeat "Arith.Ping" 0 none)).pingInterval
        = 500 * millisecond ∧
      (applyOpt {} (DialOption.WithHeartbeat "Arith.Ping" 0 none)).pingServiceMethod
        = "Arith.Ping") :=
  C4_defaults {} 0 "Arith.Ping" 0 none "tcp" "127.0.0.1:9000" [DialOption.WithBlock]

/-- Claim C5: for every method, args and client state, `Call` returns
the same result as the cancellation-aware form `CallContext` invoked
with a token that never fires (no interceptor configured, so dispatch
reaches `callContext` in both cases). -/
theorem C5_call_equiv (icSem : CallInterceptorSem) (st : Client) (heap : SessHeap)
    (m : String) (a : Payload) (env : CallEnv) (tok : Ctx)
    (hIc : st.dialOptions.callInterceptor = none)
    (hfires : tok.fires = false) :
    Client.Call icSem st heap m a env = Client.CallContext icSem st heap tok m a env := by
  unfold Client.Call Client.CallContext
  rw [hIc]
  unfold Client.callContext
  cases hc : st.getClient with
  | none => rfl
  | some sid => cases hbg : tok.isBackground <;> simp [background, hfires, hbg]

/-- Witness for C5 at a concrete client with a live session and a
concrete never-firing token. -/
theorem C5_call_equiv_witness :
    (Client.dialOptions ⟨some 0, true, false, {}⟩).callInterceptor = none ∧
    (Ctx.fires ⟨false, false, RpcErr.canceled, none, none⟩) = false ∧
    Client.Call (fun _ _ _ => none) ⟨some 0, true, false, {}⟩ ⟨[false]⟩
        "Arith.Mul" (Payload.value 3) ⟨some (RpcErr.other 2)⟩
      = Client.CallContext (fun _ _ _ => none) ⟨some 0, true, false, {}⟩ ⟨[false]⟩
          ⟨false, false, RpcErr.canceled, none, none⟩
          "Arith.Mul" (Payload.value 3) ⟨some (RpcErr.other 2)⟩ :=
  ⟨by decide, by decide,
   C5_call_equiv (fun _ _ _ => none) ⟨some 0, true, false, {}⟩ ⟨[false]⟩
     "Arith.Mul" (Payload.value 3) ⟨some (RpcErr.other 2)⟩
     ⟨false, false, RpcErr.canceled, none, none⟩ (by decide) (by decide)⟩

/-- Claim C6: with no session reference, `goContext` returns an
already-completed synthetic future carrying `ErrShutdown` under every
context — covering both `Go` and `GoContext` entry points; with a
session and a token that fires before the delegation completes, it
returns an already-completed synthetic future carrying the token's
error. -/
theorem C6_go_futures (st : Client) (heap : SessHeap) (ctx : Ctx) (m : String)
    (a : Payload) (env : GoEnv) (gSem : GoInterceptorSem) :
    (st.client = none →
      Client.goContext st heap ctx m a env = syntheticCall m a RpcErr.shutdown ∧
      (Client.goContext st heap ctx m a env).completedAtReturn = true ∧
      (Client.goContext st heap ctx m a env).err = some RpcErr.shutdown ∧
      (st.dialOptions.goInterceptor = none →
        Client.Go gSem st heap m a env = syntheticCall m a RpcErr.shutdown)) ∧
    (∀ sid, st.client = some sid → ctx.isBackground = false → ctx.fires = true →
      Client.goContext st heap ctx m a env = syntheticCall m a ctx.err ∧
      (Client.goContext st heap ctx m a env).completedAtReturn = true) := by
  constructor
  · intro hc
    have hgo : Client.goContext st heap ctx m a env = syntheticCall m a RpcErr.shutdown := by
      unfold Client.goContext Client.getClient
      rw [hc]
    refine ⟨hgo, by rw [hgo]; rfl, by rw [hgo]; rfl, ?_⟩
    intro hgi
    unfold Client.Go Client.GoContext
    rw [hgi]
    unfold Client.goContext Client.getClient
    rw [hc]
  · intro sid hc hbg hfires
    have hgo : Client.goContext st heap ctx m a env = syntheticCall m a ctx.err := by
      unfold Client.goContext Client.getClient
      rw [hc, hbg, hfires]
      simp
    exact ⟨hgo, by rw [hgo]; rfl⟩

/-- Witness for C6: no-session case at a background context, and the
token-fires case at a client holding session 0. -/
theorem C6_go_futures_witness :
    ((Client.client ⟨none, true, false, {}⟩) = none →
      Client.goContext ⟨none, true, false, {}⟩ ⟨[]⟩ background "Arith.Mul" (Payload.value 3)
          ⟨none, false⟩
        = syntheticCall "Arith.Mul" (Payload.value 3) RpcErr.shutdown ∧
      (Client.goContext ⟨none, true, false, {}⟩ ⟨[]⟩ background "Arith.Mul" (Payload.value 3)
          ⟨none, false⟩).completedAtReturn = true ∧
      (Client.goContext ⟨none, true, false, {}⟩ ⟨[]⟩ background "Arith.Mul" (Payload.value 3)
          ⟨none, false⟩).err = some RpcErr.shutdown ∧
      ((Client.dialOptions ⟨none, true, false, {}⟩).goInterceptor = none →
        Client.Go (fun c s p => syntheticCall s p RpcErr.canceled) ⟨none, true, false, {}⟩
            ⟨[]⟩ "Arith.Mul" (Payload.value 3) ⟨none, false⟩
          = syntheticCall "Arith.Mul" (Payload.value 3) RpcErr.shutdown)) ∧
    (∀ sid, (Client.client ⟨none, true, false, {}⟩) = some sid →
      (Ctx.isBackground background) = false → (Ctx.fires background) = true →
      Client.goContext ⟨none, true, false, {}⟩ ⟨[]⟩ background "Arith.Mul" (Payload.value 3)
          ⟨none, false⟩
        = syntheticCall "Arith.Mul" (Payload.value 3) (Ctx.err background) ∧
      (Client.goContext ⟨none, true, false, {}⟩ ⟨[]⟩ background "Arith.Mul" (Payload.value 3)
          ⟨none, false⟩).completedAtReturn = true) ∧
    (Client.goContext ⟨some 0, true, false, {}⟩ ⟨[false]⟩
        ⟨false, true, RpcErr.canceled, none, none⟩ "Arith.Mul" (Payload.value 3) ⟨none, false⟩
      = syntheticCall "Arith.Mul" (Payload.value 3) RpcErr.canceled ∧
     (Client.goContext ⟨some 0, true, false, {}⟩ ⟨[false]⟩
        ⟨false, true, RpcErr.canceled, none, none⟩ "Arith.Mul" (Payload.value 3)
        ⟨none, false⟩).completedAtReturn = true) :=
  ⟨(C6_go_futures ⟨none, true, false, {}⟩ ⟨[]⟩ background "Arith.Mul" (Payload.value 3)
    ⟨none, false⟩ (fun c s p => syntheticCall s p RpcErr.canceled)).1,
   (C6_go_futures ⟨none, true, false, {}⟩ ⟨[]⟩ background "Arith.Mul" (Payload.value 3)
    ⟨none, false⟩ (fun c s p => syntheticCall s p RpcErr.canceled)).2,
   (C6_go_futures ⟨some 0, true, false, {}⟩ ⟨[false]⟩
      ⟨false, true, RpcErr.canceled, none, none⟩ "Arith.Mul" (Payload.value 3) ⟨none, false⟩
      (fun c s p => syntheticCall s p RpcErr.canceled)).2 0 (by decide) (by decide) (by decide)⟩

/-- Claim C7: `callContext` with a cancellation token fails immediately
with `ErrShutdown` when no session is held; with a session it returns
the token's error when the token fires first and otherwise the session
call's result. -/
theorem C7_callContext (st : Client) (heap : SessHeap) (ctx : Ctx) (m : String) (a : Payload)
    (env : CallEnv) (hbg : ctx.isBackground = false) :
    (st.client = none → Client.callContext st heap ctx m a env = some RpcErr.shutdown) ∧
    (∀ sid, st.client = some sid →
      Client.callContext st heap ctx m a env
        = if ctx.fires then some ctx.err else rpcClientCall heap sid env.remoteResult) := by
  constructor
  · intro hc
    unfold Client.callContext Client.getClient
    rw [hc]
  · intro sid hc
    unfold Client.callContext Client.getClient
    rw [hc, hbg]
    simp

/-- Witness for C7 at a client holding session 0 and a token that does
not fire. -/
theorem C7_callContext_witness :
    (Ctx.isBackground ⟨false, false, RpcErr.canceled, none, none⟩) = false ∧
    (((Client.client ⟨some 0, true, false, {}⟩) = none →
      Client.callContext ⟨some 0, true, false, {}⟩ ⟨[false]⟩
          ⟨false, false, RpcErr.canceled, none, none⟩ "Arith.Mul" (Payload.value 3)
          ⟨some (RpcErr.other 2)⟩
        = some RpcErr.shutdown) ∧
     (∀ sid, (Client.client ⟨some 0, true, false, {}⟩) = some sid →
       Client.callContext ⟨some 0, true, false, {}⟩ ⟨[false]⟩
           ⟨false, false, RpcErr.canceled, none, none⟩ "Arith.Mul" (Payload.value 3)
           ⟨some (RpcErr.other 2)⟩
         = if (Ctx.fires ⟨false, false, RpcErr.canceled, none, none⟩)
             then some (Ctx.err ⟨false, false, RpcErr.canceled, none, none⟩)
             else rpcClientCall ⟨[false]⟩ sid (some (RpcErr.other 2)))) :=
  ⟨by decide,
   C7_callContext ⟨some 0, true, false, {}⟩ ⟨[false]⟩
     ⟨false, false, RpcErr.canceled, none, none⟩ "Arith.Mul" (Payload.value 3)
     ⟨some (RpcErr.other 2)⟩ (by decide)⟩

/-- Claim C8: a monitor tick on a closed client terminates the loop
with no probe and no handler invocation; otherwise it issues exactly
one probe — the empty-payload ping of the configured method through the
cancellation-aware `callContext` under a non-background context with a
3-second timeout — and then hands the probe's result to the handler;
and after `Close`, whatever operations have run since, a tick is
terminal and issues no probe. -/
theorem C8_monitor (st : Client) (heap : SessHeap) (env : TickEnv) (codecErr : GoErr)
    (ops : List Op) (tenv : TickEnv) :
    (st.closed = true → Client.monitorTick st heap env = (st, heap, ⟨true, 0, none⟩)) ∧
    (st.closed = false →
      (Client.monitorTick st heap env).2.2 = ⟨false, 1, some (Client.ping st heap env)⟩) ∧
    (Client.ping st heap env
       = Client.callContext st heap (pingCtx env.pingFires)
           st.dialOptions.pingServiceMethod Payload.empty ⟨env.remoteResult⟩ ∧
     (pingCtx env.pingFires).isBackground = false ∧
     (pingCtx env.pingFires).timeoutNs = some (3 * second)) ∧
    Client.monitorTick (afterCloseRun st heap codecErr ops).1
        (afterCloseRun st heap codecErr ops).2 tenv
      = ((afterCloseRun st heap codecErr ops).1, (afterCloseRun st heap codecErr ops).2,
         ⟨true, 0, none⟩) := by
  refine ⟨?_, ?_, ⟨rfl, rfl, rfl⟩, ?_⟩
  · intro hcl
    simp [Client.monitorTick, hcl]
  · intro hcl
    unfold Client.monitorTick
    rw [hcl]
    by_cases hh : st.dialOptions.pingHandler = some PingTag.default <;> simp [hh]
  · have hcl : (afterCloseRun st heap codecErr ops).1.closed = true := by
      unfold afterCloseRun
      exact run_closed ops _ _ (close_sets_closed st heap codecErr)
    simp [Client.monitorTick, hcl]

/-- Witness for C8 at a concrete open client with heartbeat configured,
closing with an interleaved reset in the trace. -/
theorem C8_monitor_witness :
    ((Client.closed ⟨some 0, true, true, {}⟩) = true →
      Client.monitorTick ⟨some 0, true, true, {}⟩ ⟨[false]⟩ ⟨false, none, ⟨none, none⟩⟩
        = (⟨some 0, true, true, {}⟩, ⟨[false]⟩, ⟨true, 0, none⟩)) ∧
    ((Client.closed ⟨some 0, true, true, {}⟩) = false →
      (Client.monitorTick ⟨some 0, true, true, {}⟩ ⟨[false]⟩ ⟨false, none, ⟨none, none⟩⟩).2.2
        = ⟨false, 1,
           some (Client.ping ⟨some 0, true, true, {}⟩ ⟨[false]⟩ ⟨false, none, ⟨none, none⟩⟩)⟩) ∧
    (Client.ping ⟨some 0, true, true, {}⟩ ⟨[false]⟩ ⟨false, none, ⟨none, none⟩⟩
       = Client.callContext ⟨some 0, true, true, {}⟩ ⟨[false]⟩ (pingCtx false)
           (Client.dialOptions ⟨some 0, true, true, {}⟩).pingServiceMethod Payload.empty
           ⟨none⟩ ∧
     (pingCtx false).isBackground = false ∧
     (pingCtx false).timeoutNs = some (3 * second)) ∧
    Client.monitorTick
        (afterCloseRun ⟨some 0, true, true, {}⟩ ⟨[false]⟩ none [Op.reset ⟨none, none⟩]).1
        (afterCloseRun ⟨some 0, true, true, {}⟩ ⟨[false]⟩ none [Op.reset ⟨none, none⟩]).2
        ⟨false, none, ⟨none, none⟩⟩
      = ((afterCloseRun ⟨some 0, true, true, {}⟩ ⟨[false]⟩ none [Op.reset ⟨none, none⟩]).1,
         (afterCloseRun ⟨some 0, true, true, {}⟩ ⟨[false]⟩ none [Op.reset ⟨none, none⟩]).2,
         ⟨true, 0, none⟩) :=
  C8_monitor ⟨some 0, true, true, {}⟩ ⟨[false]⟩ ⟨false, none, ⟨none, none⟩⟩ none
    [Op.reset ⟨none, none⟩] ⟨false, none, ⟨none, none⟩⟩

/-- Claim C9: the default ping handler does nothing on a nil probe
result; on a non-`ErrShutdown` error it logs and does not reconnect; on
`ErrShutdown` it runs `Reset` and logs exactly when that `Reset`
fails. -/
theorem C9_defaultPingHandler (st : Client) (heap : SessHeap) (renv : ResetEnv) (e : RpcErr) :
    defaultPingHandler none st heap renv = (st, heap, ⟨false, false⟩) ∧
    (e ≠ RpcErr.shutdown →
      defaultPingHandler (some e) st heap renv = (st, heap, ⟨false, true⟩)) ∧
    defaultPingHandler (some RpcErr.shutdown) st heap renv
      = ((Client.Reset st heap renv).1, (Client.Reset st heap renv).2.1,
         ⟨true, ((Client.Reset st heap renv).2.2).isSome⟩) := by
  refine ⟨rfl, ?_, ?_⟩
  · intro he
    simp [defaultPingHandler, he]
  · simp [defaultPingHandler]

/-- Witness for C9 at a concrete client whose reset dials
successfully. -/
theorem C9_defaultPingHandler_witness :
    defaultPingHandler none ⟨none, true, false, {}⟩ ⟨[]⟩ ⟨none, none⟩
      = (⟨none, true, false, {}⟩, ⟨[]⟩, ⟨false, false⟩) ∧
    (RpcErr.other 5 ≠ RpcErr.shutdown →
      defaultPingHandler (some (RpcErr.other 5)) ⟨none, true, false, {}⟩ ⟨[]⟩ ⟨none, none⟩
        = (⟨none, true, false, {}⟩, ⟨[]⟩, ⟨false, true⟩)) ∧
    defaultPingHandler (some RpcErr.shutdown) ⟨none, true, false, {}⟩ ⟨[]⟩ ⟨none, none⟩
      = ((Client.Reset ⟨none, true, false, {}⟩ ⟨[]⟩ ⟨none, none⟩).1,
         (Client.Reset ⟨none, true, false, {}⟩ ⟨[]⟩ ⟨none, none⟩).2.1,
         ⟨true, ((Client.Reset ⟨none, true, false, {}⟩ ⟨[]⟩ ⟨none, none⟩).2.2).isSome⟩) :=
  C9_defaultPingHandler ⟨none, true, false, {}⟩ ⟨[]⟩ ⟨none, none⟩ (RpcErr.other 5)

/-- Claim C10: the close-permission invariant — any held session is in
range and, whenever `closeCanBeCalled` is false, has already had its
close attempted — is preserved by every operation; consequently a
`Close` that returns nil without forwarding leaves no session whose
close was never attempted. -/
theorem C10_close_permission (st : Client) (heap : SessHeap) (op : Op) (e : GoErr) (sid : Nat)
    (hInv : InvHolds st heap = true) :
    InvHolds (step st heap op).1 (step st heap op).2 = true ∧
    ((Client.Close st heap e).2.2 = none → st.client = some sid →
      sessClosing (Client.Close st heap e).2.1 sid = true) := by
  refine ⟨step_preserves_inv st heap op hInv, ?_⟩
  intro hnone hc
  obtain ⟨c, ccbc, cl, opts⟩ := st
  simp only at hc
  subst hc
  simp only [InvHolds, Bool.and_eq_true, decide_eq_true_eq, Bool.or_eq_true] at hInv
  obtain ⟨hlt, hor⟩ := hInv
  cases ccbc with
  | false =>
      have hcls : sessClosing heap sid = true := by
        rcases hor with h | h
        · exact absurd h (by simp)
        · exact h
      simpa [Client.Close, Client.getClient] using hcls
  | true =>
      cases hcls : sessClosing heap sid with
      | true => simpa [Client.Close, Client.getClient, rpcClientClose, hcls] using hcls
      | false =>
          simp [Client.Close, Client.getClient, rpcClientClose, hcls,
            sessClosing_set_self heap sid hlt]

/-- Witness for C10: one close operation on a client whose session's
close was consumed by a failed reset. -/
theorem C10_close_permission_witness :
    InvHolds ⟨some 0, false, false, {}⟩ ⟨[true]⟩ = true ∧
    (InvHolds (step ⟨some 0, false, false, {}⟩ ⟨[true]⟩ (Op.close none)).1
        (step ⟨some 0, false, false, {}⟩ ⟨[true]⟩ (Op.close none)).2 = true ∧
     ((Client.Close ⟨some 0, false, false, {}⟩ ⟨[true]⟩ none).2.2 = none →
       (Client.client ⟨some 0, false, false, {}⟩) = some 0 →
       sessClosing (Client.Close ⟨some 0, false, false, {}⟩ ⟨[true]⟩ none).2.1 0 = true)) :=
  ⟨by decide,
   C10_close_permission ⟨some 0, false, false, {}⟩ ⟨[true]⟩ (Op.close none) none 0 (by decide)⟩

end Rpcx
